import Mathlib

set_option maxHeartbeats 1000000
set_option maxRecDepth 100000

namespace Bacs

/-- An exact decimal number, man / 10 ^ sc: the value of a parsed amount.
The source manipulates amounts as Python floats; every amount in this
application originates from a decimal literal and is formatted back to two
decimal places, so the embedding keeps the exact decimal value. -/
structure Dec where
  man : Int
  sc : Nat
  deriving DecidableEq, Repr

/-- The decimal zero. -/
def Dec.zero : Dec := ⟨0, 0⟩

/-- Powers of ten, kept away from typeclass power so that the kernel
reduces them. -/
def pow10 : Nat → Nat
  | 0 => 1
  | n + 1 => 10 * pow10 n

/-- Exact addition of decimals, aligning the scales. -/
def Dec.add (a b : Dec) : Dec :=
  if a.sc ≤ b.sc then ⟨a.man * (pow10 (b.sc - a.sc) : Nat) + b.man, b.sc⟩
  else ⟨a.man + b.man * (pow10 (a.sc - b.sc) : Nat), a.sc⟩

/-- A cell value of the tabular dataset. pandas stores an all-numeric column
as numbers (modelled exactly, as decimals) and a column with non-numeric
text as strings, so a cell is one or the other. -/
inductive Val where
  | num (x : Dec)
  | str (s : String)
  deriving DecidableEq, Repr

/-- One input row, with the six required columns of the dataset
(src/app.py lines 25-32).  The five textual columns are strings; the
amount cell is a `Val` since its runtime type depends on the column. -/
structure Row where
  beneficiary_name : String
  beneficiary_sort_code : String
  beneficiary_account : String
  amount : Val
  payment_reference : String
  processing_date : String
  deriving DecidableEq, Repr

/-- The tabular dataset handed to process_csv: its column-name list
(df.columns) and its rows. -/
structure DataFrame where
  cols : List String
  rows : List Row
  deriving DecidableEq, Repr

/-- The Python exceptions process_csv can raise: the explicit ValueError of
line 36 carrying the missing column names, the NameError of line 58 when
amount_val is read before any assignment, the TypeError pandas raises when
summing a mixed column, and the ValueError of formatting a non-number with
a fixed-point format code (line 66). -/
inductive PyErr where
  | missingCols (missing : List String)
  | nameError
  | typeError
  | valueError
  deriving DecidableEq, Repr

deriving instance DecidableEq for Except

/-- The six required column names (src/app.py lines 25-32). -/
def required_cols : List String :=
  ["beneficiary_name", "beneficiary_sort_code", "beneficiary_account",
   "amount", "payment_reference", "processing_date"]

/-- The missing columns reported on validation failure (line 35):
the set difference required_cols - df.columns, as a list. -/
def missing_of (cols : List String) : List String :=
  required_cols.filter (fun c => !cols.contains c)

/-- Numeric value of the digit characters of a decimal literal. -/
def digitsVal (l : List Char) : Nat :=
  l.foldl (fun a c => a * 10 + (c.toNat - 48)) 0

/-- Model of Python float(str) on plain decimal literals: optional sign,
integer digits, optional fractional part, at least one digit in all.
(The exponent, infinity and nan forms accepted by Python never arise in
this application and are not modelled; on them this model returns none.) -/
def float_of_string (s : String) : Option Dec :=
  let cs := s.data
  let sc : Bool × List Char :=
    match cs with
    | '-' :: t => (true, t)
    | '+' :: t => (false, t)
    | _ => (false, cs)
  let ip := sc.2.takeWhile Char.isDigit
  let rest := sc.2.dropWhile Char.isDigit
  let v : Option Dec :=
    match rest with
    | [] => if ip.isEmpty then none else some ⟨(digitsVal ip : Nat), 0⟩
    | '.' :: fr =>
        if fr.all Char.isDigit && !(ip.isEmpty && fr.isEmpty) then
          some ⟨(digitsVal ip * pow10 fr.length + digitsVal fr : Nat), fr.length⟩
        else none
    | _ => none
  v.map (fun x => if sc.1 then ⟨-x.man, x.sc⟩ else x)

/-- Python float(cell) (line 50): a numeric cell is returned as is, a string
cell is parsed, failing (raising, in Python) when it is not numeric. -/
def pyFloat : Val → Option Dec
  | .num x => some x
  | .str s => float_of_string s

/-- Two-decimal fixed-point formatting, the f-string format spec .2f used at
lines 58 and 66: the value is rounded to a whole number of hundredths, ties
to even, and printed with exactly two digits after the point. -/
def fmt2 (x : Dec) : String :=
  let t : Int := x.man * 100
  let d : Int := (pow10 x.sc : Nat)
  let q0 : Int := t.ediv d
  let r : Int := t.emod d
  let n : Int :=
    if 2 * r < d then q0
    else if d < 2 * r then q0 + 1
    else if q0.emod 2 = 0 then q0 else q0 + 1
  let m := n.natAbs
  let sign := if n < 0 then "-" else ""
  sign ++ toString (m / 100) ++ "." ++ (if m % 100 < 10 then "0" else "") ++ toString (m % 100)

/-- Numeric content of a cell (zero for a string cell; only used under an
all-numeric guard). -/
def numVal : Val → Dec
  | .num x => x
  | .str _ => Dec.zero

/-- Whether a cell is numeric. -/
def isNum : Val → Bool
  | .num _ => true
  | .str _ => false

/-- String content of a cell ("" for a numeric cell; only used under an
all-string guard). -/
def strVal : Val → String
  | .num _ => ""
  | .str s => s

/-- Exact sum of a list of decimals. -/
def decSum (l : List Dec) : Dec :=
  l.foldl Dec.add Dec.zero

/-- Model of pandas Series.sum on the amount column (line 65): an
all-numeric column sums numerically (an empty column sums to 0), an
all-string object column concatenates, and a mixed column raises
TypeError. -/
def pandasSum (vals : List Val) : Except PyErr Val :=
  if vals.all isNum then .ok (.num (decSum (vals.map numVal)))
  else if vals.all (fun v => !isNum v) then
    .ok (.str ((vals.map strVal).foldl (fun a b => a ++ b) ""))
  else .error .typeError

/-- Applying the .2f format to the column sum (line 66): formatting a
non-number with a fixed-point format code raises ValueError. -/
def pyFormat2 : Val → Except PyErr String
  | .num x => .ok (fmt2 x)
  | .str _ => .error .valueError

/-- The PAY record built for one row (lines 53-62), with q the value the
variable amount_val holds when the record is appended. -/
def payRec (r : Row) (q : Dec) : List String :=
  ["PAY", r.beneficiary_name, r.beneficiary_sort_code, r.beneficiary_account,
   fmt2 q, r.payment_reference, r.processing_date, ""]

/-- The row loop of lines 48-62.  The state is the current value of the
local variable amount_val, none while it is still unbound.  On a parse
failure the except branch assigns the misspelt amount_valu instead, so
amount_val keeps its previous value; if it is still unbound, reading it in
the f-string raises NameError. -/
def payLoop : Option Dec → List Row → Except PyErr (List (List String))
  | _, [] => .ok []
  | amount_val, r :: rs =>
    let amount_val2 :=
      match pyFloat r.amount with
      | some q => some q
      | none => amount_val
    match amount_val2 with
    | none => .error .nameError
    | some q =>
      match payLoop (some q) rs with
      | .error e => .error e
      | .ok rest => .ok (payRec r q :: rest)

/-- The value of amount_val after the loop has run over rs starting from
state st. -/
def lastParsed : Option Dec → List Row → Option Dec
  | st, [] => st
  | st, r :: rs =>
    lastParsed (match pyFloat r.amount with | some q => some q | none => st) rs

/-- The four header records appended at lines 42-45.  The source computes
today = datetime.today().strftime of the pattern %Y-%m-%d at line 38; the
embedding passes that string as the explicit parameter today. -/
def headerRecords (debtor_name debtor_account batch_id today : String) : List (List String) :=
  [["VOL", "001", "HSBC", today, "", "", "", ""],
   ["HDR1", debtor_name, debtor_account, "HSBC", today, "", "", ""],
   ["HDR2", "Payment Batch " ++ batch_id, batch_id, "", "", "", "", ""],
   ["UHL1", debtor_name, debtor_account, "", "", "", "", ""]]

/-- The CONTRA record of line 66, with total the already formatted sum. -/
def contraRecord (debtor_name contra_sort_code debtor_account total : String) : List String :=
  ["CONTRA", debtor_name, contra_sort_code, debtor_account, total, "", "", ""]

/-- The three trailer records of lines 67-69. -/
def trailerRecords : List (List String) :=
  [["EOF1", "End of File", "", "", "", "", "", ""],
   ["EOF2", "Checksum", "", "", "", "", "", ""],
   ["UTL1", "Processing Complete", "", "", "", "", "", ""]]

/-- Lines 24-69 of process_csv: the validation check and the construction
of the full record list, before serialization. -/
def build_records (df : DataFrame) (debtor_name debtor_account batch_id contra_sort_code today : String) :
    Except PyErr (List (List String)) :=
  if required_cols.all (fun c => df.cols.contains c) then
    match payLoop none df.rows with
    | .error e => .error e
    | .ok pays =>
      match pandasSum (df.rows.map Row.amount) with
      | .error e => .error e
      | .ok total =>
        match pyFormat2 total with
        | .error e => .error e
        | .ok totalStr =>
          .ok (headerRecords debtor_name debtor_account batch_id today ++ pays ++
               [contraRecord debtor_name contra_sort_code debtor_account totalStr] ++
               trailerRecords)
  else .error (.missingCols (missing_of df.cols))

/-- Whether a field must be quoted by csv.writer under minimal quoting:
it contains the delimiter, the quote character, or a line-break character. -/
def isSpecial (c : Char) : Bool :=
  c == ',' || c == '"' || c == '\r' || c == '\n'

/-- Minimal-quoting test of csv.writer for one field. -/
def needsQuote (s : String) : Bool :=
  s.data.any isSpecial

/-- Quote doubling inside a quoted field. -/
def escQuotes : List Char → List Char
  | [] => []
  | c :: cs => if c == '"' then '"' :: '"' :: escQuotes cs else c :: escQuotes cs

/-- Encoding of one field by csv.writer: quoted with doubled inner quotes
when it needs quoting, verbatim otherwise. -/
def encField (s : String) : List Char :=
  if needsQuote s then '"' :: (escQuotes s.data ++ ['"']) else s.data

/-- Encoding of one record: fields joined by the comma delimiter and
terminated by the default CRLF line terminator of csv.writer. -/
def encRecord : List String → List Char
  | [] => ['\r', '\n']
  | [f] => encField f ++ ['\r', '\n']
  | f :: fs => encField f ++ ',' :: encRecord fs

/-- Lines 71-75: csv.writer writerows into an in-memory buffer, whose
final contents are returned. -/
def serializeRecords (recs : List (List String)) : String :=
  String.mk ((recs.map encRecord).flatten)

/-- The whole of process_csv (src/app.py lines 7-75): validate, build the
records, serialize them. -/
def process_csv (df : DataFrame) (debtor_name debtor_account batch_id contra_sort_code today : String) :
    Except PyErr String :=
  match build_records df debtor_name debtor_account batch_id contra_sort_code today with
  | .error e => .error e
  | .ok records => .ok (serializeRecords records)

/-- A character ending an unquoted field: the delimiter or a line break. -/
def notFieldEnd (c : Char) : Bool :=
  !(c == ',' || c == '\r' || c == '\n')

/-- Reading an unquoted field: the chars up to the next delimiter or line
break, and the rest of the input. -/
def takeUnquoted (l : List Char) : List Char × List Char :=
  (l.takeWhile notFieldEnd, l.dropWhile notFieldEnd)

/-- Reading the body of a quoted field, after the opening quote: a doubled
quote stands for one quote char, a single quote closes the field; an
unterminated quoted field is a parse failure. -/
def parseQuotedTail : List Char → Option (List Char × List Char)
  | [] => none
  | c :: rest =>
    if c == '"' then
      match rest with
      | [] => some ([], [])
      | d :: rest2 =>
        if d == '"' then (parseQuotedTail rest2).map (fun p => ('"' :: p.1, p.2))
        else some ([], d :: rest2)
    else (parseQuotedTail rest).map (fun p => (c :: p.1, p.2))

/-- Reading one field: quoted if it opens with the quote char, unquoted
otherwise. -/
def parseOneField (input : List Char) : Option (List Char × List Char) :=
  match input with
  | [] => some ([], [])
  | c :: rest => if c == '"' then parseQuotedTail rest else some (takeUnquoted (c :: rest))

/-- Reading the fields of one record, fuel bounding the number of fields:
fields separated by commas, the record closed by a CRLF line terminator. -/
def parseFields : Nat → List Char → Option (List String × List Char)
  | 0, _ => none
  | fuel + 1, input =>
    match parseOneField input with
    | none => none
    | some (fld, rest) =>
      match rest with
      | [] => none
      | c :: r =>
        if c == ',' then
          match parseFields fuel r with
          | none => none
          | some (flds, r2) => some (String.mk fld :: flds, r2)
        else if c == '\r' then
          match r with
          | [] => none
          | d :: r2 => if d == '\n' then some ([String.mk fld], r2) else none
        else none

/-- Reading a sequence of records until the input is exhausted, fuel
bounding the number of records. -/
def parseRecords (fuel : Nat) (input : List Char) : Option (List (List String)) :=
  match input with
  | [] => some []
  | c :: rest =>
    match fuel with
    | 0 => none
    | fuel2 + 1 =>
      match parseFields ((c :: rest).length + 1) (c :: rest) with
      | none => none
      | some (fs, r2) =>
        match parseRecords fuel2 r2 with
        | none => none
        | some rss => some (fs :: rss)

/-- Parsing comma-delimited text back into records, by the same delimited
text rules the serializer uses (comma delimiter, minimal quoting with a
doubled quote char, CRLF record terminator). -/
def parseCSV (s : String) : Option (List (List String)) :=
  parseRecords (s.data.length + 1) s.data

/-- The arguments of process_csv, as the environment of caller-visible
objects the call receives. -/
structure Args where
  df : DataFrame
  debtor_name : String
  debtor_account : String
  batch_id : String
  contra_sort_code : String
  deriving DecidableEq, Repr

/-- The program state during the row loop: the caller-visible arguments
plus the function locals — the records list under construction and the
two amount variables (none while unbound), amount_valu being the misspelt
variable the except branch of line 52 assigns. -/
structure PyState where
  args : Args
  records : List (List String)
  amount_val : Option Dec
  amount_valu : Option Dec
  deriving DecidableEq, Repr

/-- One iteration of the row loop (lines 48-62) as a state transformer:
try to parse the amount, assigning amount_val on success and the misspelt
amount_valu on failure, then read amount_val — raising NameError if it is
still unbound — and append the PAY record. -/
def rowStep (s : PyState) (r : Row) : Except PyErr PyState :=
  let s1 :=
    match pyFloat r.amount with
    | some q => { s with amount_val := some q }
    | none => { s with amount_valu := some Dec.zero }
  match s1.amount_val with
  | none => .error .nameError
  | some q => .ok { s1 with records := s1.records ++ [payRec r q] }

/-- The row loop run over the whole dataset, threading the state. -/
def runRows (s : PyState) : List Row → Except PyErr PyState
  | [] => .ok s
  | r :: rs =>
    match rowStep s r with
    | .error e => .error e
    | .ok s2 => runRows s2 rs

/-- process_csv as an explicit state-passing computation over the argument
environment: the result is returned together with the final state of the
caller-visible arguments, whether the call returns or raises. -/
def process_csv_imp (a : Args) (today : String) : Args × Except PyErr String :=
  if required_cols.all (fun c => a.df.cols.contains c) then
    match runRows
        { args := a,
          records := headerRecords a.debtor_name a.debtor_account a.batch_id today,
          amount_val := none, amount_valu := none } a.df.rows with
    | .error e => (a, .error e)
    | .ok s1 =>
      match pandasSum (a.df.rows.map Row.amount) with
      | .error e => (s1.args, .error e)
      | .ok total =>
        match pyFormat2 total with
        | .error e => (s1.args, .error e)
        | .ok totalStr =>
          (s1.args,
           .ok (serializeRecords
                 (s1.records ++
                  [contraRecord a.debtor_name a.contra_sort_code a.debtor_account totalStr] ++
                  trailerRecords)))
  else (a, .error (.missingCols (missing_of a.df.cols)))

/-- The worked example row of the specification: J Smith, amount 150.5. -/
def exRow : Row :=
  { beneficiary_name := "J Smith", beneficiary_sort_code := "11-22-33",
    beneficiary_account := "87654321", amount := .num ⟨1505, 1⟩,
    payment_reference := "INV001", processing_date := "2024-01-15" }

/-- The worked example dataset of the specification: one well-formed row. -/
def exDf : DataFrame := ⟨required_cols, [exRow]⟩

/-- A row whose amount text does not parse as a number. -/
def badRow : Row := { exRow with amount := .str "abc", payment_reference := "INV002" }

/-- A dataset whose first (and only) row has an unparsable amount. -/
def badDf : DataFrame := ⟨required_cols, [badRow]⟩

/-- Another row with an unparsable amount, for a separate scenario. -/
def badRow2 : Row := { exRow with amount := .str "oops", payment_reference := "INV003" }

/-- A dataset that passes column validation but whose only row has an
unparsable amount. -/
def badDf2 : DataFrame := ⟨required_cols, [badRow2]⟩

/-- A dataset lacking the amount column. -/
def missDf : DataFrame :=
  ⟨["beneficiary_name", "beneficiary_sort_code", "beneficiary_account",
    "payment_reference", "processing_date", "extra"], [exRow]⟩

/-- The record sequence process_csv builds from the worked example dataset,
matching the example of the specification. -/
def exRecs : List (List String) :=
  [["VOL", "001", "HSBC", "2024-01-15", "", "", "", ""],
   ["HDR1", "ABC Ltd", "12345678", "HSBC", "2024-01-15", "", "", ""],
   ["HDR2", "Payment Batch 001", "001", "", "", "", "", ""],
   ["UHL1", "ABC Ltd", "12345678", "", "", "", "", ""],
   ["PAY", "J Smith", "11-22-33", "87654321", "150.50", "INV001", "2024-01-15", ""],
   ["CONTRA", "ABC Ltd", "12-34-56", "12345678", "150.50", "", "", ""],
   ["EOF1", "End of File", "", "", "", "", "", ""],
   ["EOF2", "Checksum", "", "", "", "", "", ""],
   ["UTL1", "Processing Complete", "", "", "", "", "", ""]]

/-- How many leading fields the source populates in a record of each tag
(lines 42-69): every later position of the 8-field record is written as a
literal empty string, except in PAY records where positions 1-6 carry the
row data and only the final position is the literal empty string. -/
def usedFields : String → Nat
  | "VOL" => 4
  | "HDR1" => 5
  | "HDR2" => 3
  | "UHL1" => 3
  | "PAY" => 7
  | "CONTRA" => 5
  | "EOF1" => 2
  | "EOF2" => 2
  | "UTL1" => 2
  | _ => 8

theorem payLoop_nil (st : Option Dec) : payLoop st [] = .ok [] := rfl

theorem payLoop_cons (st : Option Dec) (r : Row) (rs : List Row) :
    payLoop st (r :: rs) =
      match (match pyFloat r.amount with | some q => some q | none => st) with
      | none => .error .nameError
      | some q =>
        match payLoop (some q) rs with
        | .error e => .error e
        | .ok rest => .ok (payRec r q :: rest) := rfl

theorem payLoop_length : ∀ (rows : List Row) (st : Option Dec) (l : List (List String)),
    payLoop st rows = .ok l → l.length = rows.length := by
  intro rows
  induction rows with
  | nil =>
    intro st l h
    rw [payLoop_nil] at h
    cases h
    rfl
  | cons r rs ih =>
    intro st l h
    rw [payLoop_cons] at h
    cases hp : pyFloat r.amount with
    | some q =>
      simp only [hp] at h
      cases hrec : payLoop (some q) rs with
      | error e => simp [hrec] at h
      | ok rest =>
        simp only [hrec] at h
        cases h
        simp [ih (some q) rest hrec]
    | none =>
      simp only [hp] at h
      cases st with
      | none => simp at h
      | some q =>
        simp only at h
        cases hrec : payLoop (some q) rs with
        | error e => simp [hrec] at h
        | ok rest =>
          simp only [hrec] at h
          cases h
          simp [ih (some q) rest hrec]

theorem payLoop_get : ∀ (rows : List Row) (st : Option Dec) (l : List (List String)),
    payLoop st rows = .ok l →
    ∀ (i : Nat) (r : Row), rows.get? i = some r → ∃ q, l.get? i = some (payRec r q) := by
  intro rows
  induction rows with
  | nil => intro st l h i r hi; simp at hi
  | cons x rs ih =>
    intro st l h i r hi
    rw [payLoop_cons] at h
    cases hp : pyFloat x.amount with
    | some q =>
      simp only [hp] at h
      cases hrec : payLoop (some q) rs with
      | error e => simp [hrec] at h
      | ok rest =>
        simp only [hrec] at h
        cases h
        cases i with
        | zero => cases hi; exact ⟨q, rfl⟩
        | succ j => exact ih (some q) rest hrec j r hi
    | none =>
      simp only [hp] at h
      cases st with
      | none => simp at h
      | some q =>
        simp only at h
        cases hrec : payLoop (some q) rs with
        | error e => simp [hrec] at h
        | ok rest =>
          simp only [hrec] at h
          cases h
          cases i with
          | zero => cases hi; exact ⟨q, rfl⟩
          | succ j => exact ih (some q) rest hrec j r hi

theorem payLoop_mem : ∀ (rows : List Row) (st : Option Dec) (l : List (List String)),
    payLoop st rows = .ok l → ∀ rec ∈ l, ∃ r q, rec = payRec r q := by
  intro rows
  induction rows with
  | nil =>
    intro st l h rec hrecmem
    rw [payLoop_nil] at h
    cases h
    simp at hrecmem
  | cons x rs ih =>
    intro st l h rec hrecmem
    rw [payLoop_cons] at h
    cases hp : pyFloat x.amount with
    | some q =>
      simp only [hp] at h
      cases hrec : payLoop (some q) rs with
      | error e => simp [hrec] at h
      | ok rest =>
        simp only [hrec] at h
        cases h
        rcases List.mem_cons.mp hrecmem with h0 | h0
        · exact ⟨x, q, h0⟩
        · exact ih (some q) rest hrec rec h0
    | none =>
      simp only [hp] at h
      cases st with
      | none => simp at h
      | some q =>
        simp only at h
        cases hrec : payLoop (some q) rs with
        | error e => simp [hrec] at h
        | ok rest =>
          simp only [hrec] at h
          cases h
          rcases List.mem_cons.mp hrecmem with h0 | h0
          · exact ⟨x, q, h0⟩
          · exact ih (some q) rest hrec rec h0

theorem payLoop_allNum : ∀ (rows : List Row) (st : Option Dec),
    (∀ r ∈ rows, ∃ x, r.amount = Val.num x) → ∃ l, payLoop st rows = .ok l := by
  intro rows
  induction rows with
  | nil => intro st _; exact ⟨[], rfl⟩
  | cons r rs ih =>
    intro st hnum
    obtain ⟨x, hx⟩ := hnum r (List.mem_cons_self r rs)
    obtain ⟨l, hl⟩ := ih (some x) (fun r2 h2 => hnum r2 (List.mem_cons_of_mem r h2))
    refine ⟨payRec r x :: l, ?_⟩
    rw [payLoop_cons, hx]
    simp only [pyFloat, hl]

theorem lastParsed_nil (st : Option Dec) : lastParsed st [] = st := rfl

theorem lastParsed_cons (st : Option Dec) (r : Row) (rs : List Row) :
    lastParsed st (r :: rs) =
      lastParsed (match pyFloat r.amount with | some q => some q | none => st) rs := rfl

theorem payLoop_append : ∀ (xs ys : List Row) (st : Option Dec) (l1 : List (List String)),
    payLoop st xs = .ok l1 →
    payLoop st (xs ++ ys) =
      match payLoop (lastParsed st xs) ys with
      | .error e => .error e
      | .ok l2 => .ok (l1 ++ l2) := by
  intro xs
  induction xs with
  | nil =>
    intro ys st l1 h
    rw [payLoop_nil] at h
    cases h
    rw [List.nil_append, lastParsed_nil]
    cases hys : payLoop st ys <;> simp [hys]
  | cons x xs ih =>
    intro ys st l1 h
    rw [payLoop_cons] at h
    rw [List.cons_append, payLoop_cons, lastParsed_cons]
    cases hp : pyFloat x.amount with
    | some q =>
      simp only [hp] at h ⊢
      cases hrec : payLoop (some q) xs with
      | error e => simp [hrec] at h
      | ok rest =>
        simp only [hrec] at h
        cases h
        rw [ih ys (some q) rest hrec]
        cases hys : payLoop (lastParsed (some q) xs) ys <;> simp [hys]
    | none =>
      simp only [hp] at h ⊢
      cases st with
      | none => simp at h
      | some q =>
        simp only at h ⊢
        cases hrec : payLoop (some q) xs with
        | error e => simp [hrec] at h
        | ok rest =>
          simp only [hrec] at h
          cases h
          rw [ih ys (some q) rest hrec]
          cases hys : payLoop (lastParsed (some q) xs) ys <;> simp [hys]

theorem build_records_ok_shape (df : DataFrame) (dn da bi cs t : String)
    (recs : List (List String)) (h : build_records df dn da bi cs t = .ok recs) :
    ∃ pays totalStr, payLoop none df.rows = .ok pays ∧
      recs = headerRecords dn da bi t ++ pays ++
             [contraRecord dn cs da totalStr] ++ trailerRecords := by
  unfold build_records at h
  cases hc : required_cols.all (fun c => df.cols.contains c) with
  | false => rw [hc] at h; simp at h
  | true =>
    rw [hc] at h
    simp only [if_true] at h
    cases hp : payLoop none df.rows with
    | error e => simp [hp] at h
    | ok pays =>
      simp only [hp] at h
      cases hs : pandasSum (df.rows.map Row.amount) with
      | error e => simp [hs] at h
      | ok total =>
        simp only [hs] at h
        cases hf : pyFormat2 total with
        | error e => simp [hf] at h
        | ok totalStr =>
          simp only [hf] at h
          cases h
          exact ⟨pays, totalStr, rfl, rfl⟩

theorem build_records_allNum (df : DataFrame) (dn da bi cs t : String)
    (hcols : required_cols.all (fun c => df.cols.contains c) = true)
    (hnum : ∀ r ∈ df.rows, ∃ x, r.amount = Val.num x) :
    ∃ pays, payLoop none df.rows = .ok pays ∧
      build_records df dn da bi cs t = .ok
        (headerRecords dn da bi t ++ pays ++
         [contraRecord dn cs da (fmt2 (decSum ((df.rows.map Row.amount).map numVal)))] ++
         trailerRecords) := by
  obtain ⟨pays, hp⟩ := payLoop_allNum df.rows none hnum
  have hall : (df.rows.map Row.amount).all isNum = true := by
    rw [List.all_eq_true]
    intro v hv
    rw [List.mem_map] at hv
    obtain ⟨r, hr, hvr⟩ := hv
    obtain ⟨x, hx⟩ := hnum r hr
    rw [← hvr, hx]
    rfl
  refine ⟨pays, hp, ?_⟩
  unfold build_records
  rw [hcols]
  simp only [if_true, hp]
  unfold pandasSum
  rw [hall]
  simp only [if_true, pyFormat2]

theorem get?_parts {α : Type} (H P C T : List α) (i : Nat) :
    (H ++ P ++ C ++ T).get? i =
      if i < H.length then H.get? i
      else if i < H.length + P.length then P.get? (i - H.length)
      else if i < H.length + P.length + C.length then C.get? (i - H.length - P.length)
      else T.get? (i - H.length - P.length - C.length) := by
  have hassoc : H ++ P ++ C ++ T = H ++ (P ++ (C ++ T)) := by simp [List.append_assoc]
  rw [hassoc]
  by_cases h1 : i < H.length
  · rw [List.get?_append h1, if_pos h1]
  · rw [List.get?_append_right (Nat.le_of_not_lt h1), if_neg h1]
    by_cases h2 : i < H.length + P.length
    · have h2b : i - H.length < P.length := by omega
      rw [List.get?_append h2b, if_pos h2]
    · have h2b : P.length ≤ i - H.length := by omega
      rw [List.get?_append_right h2b, if_neg h2]
      by_cases h3 : i < H.length + P.length + C.length
      · have h3b : i - H.length - P.length < C.length := by omega
        rw [List.get?_append h3b, if_pos h3]
      · have h3b : C.length ≤ i - H.length - P.length := by omega
        rw [List.get?_append_right h3b, if_neg h3]

theorem string_mk_data (s : String) : String.mk s.data = s := rfl

theorem parseQuotedTail_close (c : Char) (r : List Char) (hc : (c == '"') = false) :
    parseQuotedTail ('"' :: c :: r) = some ([], c :: r) := by
  simp only [parseQuotedTail, beq_self_eq_true, if_true]
  simp [hc]

theorem parseQuotedTail_dquote (rest : List Char) :
    parseQuotedTail ('"' :: '"' :: rest) =
      (parseQuotedTail rest).map (fun p => ('"' :: p.1, p.2)) := by
  simp [parseQuotedTail]

theorem parseQuotedTail_ne (a : Char) (rest : List Char) (ha : (a == '"') = false) :
    parseQuotedTail (a :: rest) =
      (parseQuotedTail rest).map (fun p => (a :: p.1, p.2)) := by
  rw [parseQuotedTail.eq_def]
  simp [ha]

theorem escQuotes_parse : ∀ (l : List Char) (c : Char) (r : List Char), (c == '"') = false →
    parseQuotedTail (escQuotes l ++ '"' :: c :: r) = some (l, c :: r) := by
  intro l
  induction l with
  | nil =>
    intro c r hc
    rw [show escQuotes [] ++ '"' :: c :: r = '"' :: c :: r from rfl]
    exact parseQuotedTail_close c r hc
  | cons a as ih =>
    intro c r hc
    by_cases ha : a = '"'
    · subst ha
      rw [show escQuotes ('"' :: as) ++ '"' :: c :: r =
          '"' :: '"' :: (escQuotes as ++ '"' :: c :: r) by
        simp [escQuotes]]
      rw [parseQuotedTail_dquote, ih c r hc]
      rfl
    · have ha2 : (a == '"') = false := by simp [ha]
      rw [show escQuotes (a :: as) ++ '"' :: c :: r =
          a :: (escQuotes as ++ '"' :: c :: r) by
        simp [escQuotes, ha2]]
      rw [parseQuotedTail_ne a _ ha2, ih c r hc]
      rfl

theorem takeUnquoted_append : ∀ (l : List Char) (c : Char) (r : List Char),
    l.all notFieldEnd = true → notFieldEnd c = false →
    takeUnquoted (l ++ c :: r) = (l, c :: r) := by
  intro l
  induction l with
  | nil =>
    intro c r _ hc
    simp [takeUnquoted, List.takeWhile, List.dropWhile, hc]
  | cons a as ih =>
    intro c r hl hc
    have hla : notFieldEnd a = true ∧ as.all notFieldEnd = true := by
      simpa [List.all_cons] using hl
    have h2 := ih c r hla.2 hc
    simp only [takeUnquoted, Prod.mk.injEq] at h2
    simp only [takeUnquoted, List.cons_append, List.takeWhile_cons, List.dropWhile_cons,
      hla.1, if_true, Prod.mk.injEq]
    exact ⟨by rw [h2.1], by rw [h2.2]⟩

theorem isSpecial_false (a : Char) (h : isSpecial a = false) :
    notFieldEnd a = true ∧ (a == '"') = false := by
  unfold isSpecial at h
  unfold notFieldEnd
  rcases Bool.or_eq_false_iff.mp h with ⟨h3, h4⟩
  rcases Bool.or_eq_false_iff.mp h3 with ⟨h5, h6⟩
  rcases Bool.or_eq_false_iff.mp h5 with ⟨h1, h2⟩
  rw [h1, h6, h4]
  exact ⟨rfl, h2⟩

theorem needsQuote_false (s : String) (h : needsQuote s = false) :
    ∀ a ∈ s.data, notFieldEnd a = true ∧ (a == '"') = false := by
  intro a ha
  apply isSpecial_false
  unfold needsQuote at h
  rw [List.any_eq_false] at h
  exact Bool.eq_false_iff.mpr (h a ha)

theorem parseOneField_enc (f : String) (c : Char) (r : List Char)
    (hc : c = ',' ∨ c = '\r') :
    parseOneField (encField f ++ c :: r) = some (f.data, c :: r) := by
  have hcq : (c == '"') = false := by rcases hc with rfl | rfl <;> rfl
  have hcnf : notFieldEnd c = false := by rcases hc with rfl | rfl <;> rfl
  unfold encField
  cases hq : needsQuote f with
  | true =>
    simp only [if_true]
    have hassoc : ('"' :: (escQuotes f.data ++ ['"'])) ++ c :: r =
        '"' :: (escQuotes f.data ++ '"' :: c :: r) := by
      simp [List.append_assoc]
    rw [hassoc]
    simp only [parseOneField, beq_self_eq_true, if_true]
    exact escQuotes_parse f.data c r hcq
  | false =>
    simp only [Bool.false_eq_true, if_false]
    have hall : f.data.all notFieldEnd = true := by
      rw [List.all_eq_true]
      intro a ha
      exact ((needsQuote_false f hq) a ha).1
    cases hd : f.data with
    | nil =>
      simp only [List.nil_append, parseOneField, hcq, Bool.false_eq_true, if_false]
      rw [show takeUnquoted (c :: r) = ([], c :: r) from takeUnquoted_append [] c r rfl hcnf]
    | cons d ds =>
      have hdq : (d == '"') = false := by
        have := needsQuote_false f hq d (by rw [hd]; exact List.mem_cons_self d ds)
        exact this.2
      simp only [List.cons_append, parseOneField, hdq, Bool.false_eq_true, if_false]
      have := takeUnquoted_append (d :: ds) c r (by rw [← hd]; exact hall) hcnf
      rw [List.cons_append] at this
      rw [this]

theorem encRecord_singleton (f : String) : encRecord [f] = encField f ++ ['\r', '\n'] := rfl

theorem encRecord_cons2 (f f2 : String) (fs : List String) :
    encRecord (f :: f2 :: fs) = encField f ++ ',' :: encRecord (f2 :: fs) := rfl

theorem encRecord_length : ∀ (fs : List String), fs.length + 1 ≤ (encRecord fs).length := by
  intro fs
  induction fs with
  | nil => simp [encRecord]
  | cons f fs ih =>
    cases fs with
    | nil => simp [encRecord_singleton]
    | cons f2 fs2 =>
      rw [encRecord_cons2]
      simp only [List.length_append, List.length_cons]
      simp only [List.length_cons] at ih
      omega

theorem parseFields_enc : ∀ (fs : List String) (rest : List Char) (fuel : Nat),
    fs ≠ [] → fs.length ≤ fuel →
    parseFields fuel (encRecord fs ++ rest) = some (fs, rest) := by
  intro fs
  induction fs with
  | nil => intro rest fuel h _; exact absurd rfl h
  | cons f fs ih =>
    intro rest fuel _ hfuel
    cases fuel with
    | zero => simp at hfuel
    | succ fuel2 =>
      cases fs with
      | nil =>
        have hin : encRecord [f] ++ rest = encField f ++ '\r' :: '\n' :: rest := by
          rw [encRecord_singleton]
          simp [List.append_assoc]
        rw [hin]
        simp only [parseFields]
        rw [parseOneField_enc f '\r' ('\n' :: rest) (Or.inr rfl)]
        simp only [string_mk_data]
        rfl
      | cons f2 fs2 =>
        have hin : encRecord (f :: f2 :: fs2) ++ rest =
            encField f ++ ',' :: (encRecord (f2 :: fs2) ++ rest) := by
          rw [encRecord_cons2]
          simp [List.append_assoc]
        rw [hin]
        simp only [parseFields]
        rw [parseOneField_enc f ',' (encRecord (f2 :: fs2) ++ rest) (Or.inl rfl)]
        have hstep := ih rest fuel2 (by simp) (by simp at hfuel ⊢; omega)
        simp only [beq_self_eq_true, if_true, hstep, string_mk_data]

theorem records_le_flatten (recs : List (List String)) :
    recs.length ≤ ((recs.map encRecord).flatten).length + 1 := by
  induction recs with
  | nil => simp
  | cons r rs ih =>
    simp only [List.map_cons, List.flatten_cons, List.length_append, List.length_cons]
    have h1 := encRecord_length r
    omega

theorem parseRecords_enc : ∀ (recs : List (List String)) (fuel : Nat),
    (∀ rec ∈ recs, rec ≠ []) → recs.length ≤ fuel →
    parseRecords fuel ((recs.map encRecord).flatten) = some recs := by
  intro recs
  induction recs with
  | nil =>
    intro fuel _ _
    simp only [List.map_nil, List.flatten_nil]
    cases fuel <;> rfl
  | cons r rs ih =>
    intro fuel hne hfuel
    have hrne : r ≠ [] := hne r (List.mem_cons_self r rs)
    have hlen := encRecord_length r
    have henne : encRecord r ≠ [] := by
      intro h0
      rw [h0] at hlen
      simp at hlen
    obtain ⟨c, t, hct⟩ := List.exists_cons_of_ne_nil henne
    cases fuel with
    | zero => simp at hfuel
    | succ fuel2 =>
      have hflat : ((r :: rs).map encRecord).flatten =
          c :: (t ++ ((rs.map encRecord)).flatten) := by
        simp only [List.map_cons, List.flatten_cons, hct, List.cons_append]
      rw [hflat]
      simp only [parseRecords]
      have hback : c :: (t ++ (rs.map encRecord).flatten) =
          encRecord r ++ (rs.map encRecord).flatten := by
        rw [hct, List.cons_append]
      have hbound : r.length ≤
          (encRecord r ++ (rs.map encRecord).flatten).length + 1 := by
        simp only [List.length_append]
        omega
      rw [hback, parseFields_enc r _ _ hrne hbound]
      have hrec := ih fuel2 (fun rec hm => hne rec (List.mem_cons_of_mem r hm))
        (by simp at hfuel ⊢; omega)
      simp only [hrec]

theorem parse_serialize (recs : List (List String)) (h : ∀ rec ∈ recs, rec ≠ []) :
    parseCSV (serializeRecords recs) = some recs := by
  unfold parseCSV serializeRecords
  have hdata : (String.mk ((recs.map encRecord).flatten)).data =
      (recs.map encRecord).flatten := rfl
  rw [hdata]
  exact parseRecords_enc recs _ h (records_le_flatten recs)

theorem rowStep_eq (s : PyState) (r : Row) :
    rowStep s r =
      match pyFloat r.amount with
      | some q =>
          .ok { args := s.args, records := s.records ++ [payRec r q],
                amount_val := some q, amount_valu := s.amount_valu }
      | none =>
          match s.amount_val with
          | none => .error .nameError
          | some q =>
              .ok { args := s.args, records := s.records ++ [payRec r q],
                    amount_val := some q, amount_valu := some Dec.zero } := by
  unfold rowStep
  cases hp : pyFloat r.amount with
  | some q => rfl
  | none =>
    cases hs : s.amount_val with
    | none => simp
    | some q => simp [hs]

theorem runRows_payLoop : ∀ (rows : List Row) (s : PyState),
    (∀ e, payLoop s.amount_val rows = .error e → runRows s rows = .error e) ∧
    (∀ l, payLoop s.amount_val rows = .ok l →
      ∃ av au, runRows s rows = .ok ⟨s.args, s.records ++ l, av, au⟩) := by
  intro rows
  induction rows with
  | nil =>
    intro s
    constructor
    · intro e h
      rw [payLoop_nil] at h
      cases h
    · intro l h
      rw [payLoop_nil] at h
      cases h
      exact ⟨s.amount_val, s.amount_valu, by simp [runRows]⟩
  | cons r rs ih =>
    intro s
    constructor
    · intro e h
      rw [payLoop_cons] at h
      cases hp : pyFloat r.amount with
      | some q =>
        simp only [hp] at h
        cases hrec : payLoop (some q) rs with
        | error e2 =>
          simp only [hrec] at h
          cases h
          simp only [runRows, rowStep_eq, hp]
          exact (ih ⟨s.args, s.records ++ [payRec r q], some q, s.amount_valu⟩).1 _ hrec
        | ok rest => simp [hrec] at h
      | none =>
        simp only [hp] at h
        cases hs : s.amount_val with
        | none =>
          rw [hs] at h
          simp only at h
          cases h
          simp [runRows, rowStep_eq, hp, hs]
        | some q =>
          rw [hs] at h
          simp only at h
          cases hrec : payLoop (some q) rs with
          | error e2 =>
            simp only [hrec] at h
            cases h
            simp only [runRows, rowStep_eq, hp, hs]
            exact (ih ⟨s.args, s.records ++ [payRec r q], some q, some Dec.zero⟩).1 _ hrec
          | ok rest => simp [hrec] at h
    · intro l h
      rw [payLoop_cons] at h
      cases hp : pyFloat r.amount with
      | some q =>
        simp only [hp] at h
        cases hrec : payLoop (some q) rs with
        | error e2 => simp [hrec] at h
        | ok rest =>
          simp only [hrec] at h
          cases h
          obtain ⟨av, au, hrun⟩ :=
            (ih ⟨s.args, s.records ++ [payRec r q], some q, s.amount_valu⟩).2 rest hrec
          refine ⟨av, au, ?_⟩
          simp only [runRows, rowStep_eq, hp]
          rw [hrun]
          simp
      | none =>
        simp only [hp] at h
        cases hs : s.amount_val with
        | none =>
          rw [hs] at h
          simp at h
        | some q =>
          rw [hs] at h
          simp only at h
          cases hrec : payLoop (some q) rs with
          | error e2 => simp [hrec] at h
          | ok rest =>
            simp only [hrec] at h
            cases h
            obtain ⟨av, au, hrun⟩ :=
              (ih ⟨s.args, s.records ++ [payRec r q], some q, some Dec.zero⟩).2 rest hrec
            refine ⟨av, au, ?_⟩
            simp only [runRows, rowStep_eq, hp, hs]
            rw [hrun]
            simp

theorem missing_of_sdiff (cols : List String) :
    (missing_of cols).toFinset = required_cols.toFinset \ cols.toFinset := by
  ext a
  rw [List.mem_toFinset, missing_of, List.mem_filter, Finset.mem_sdiff,
    List.mem_toFinset, List.mem_toFinset]
  constructor
  · rintro ⟨h1, h2⟩
    refine ⟨h1, fun hmem => ?_⟩
    have hc : cols.contains a = true := List.elem_iff.mpr hmem
    rw [hc] at h2
    simp at h2
  · rintro ⟨h1, h2⟩
    refine ⟨h1, ?_⟩
    have he : List.elem a cols = false := by
      cases hcc : List.elem a cols
      · rfl
      · exact absurd (List.elem_iff.mp hcc) h2
    have hc : cols.contains a = false := he
    rw [hc]
    rfl

theorem build_records_mem_eight (df : DataFrame) (dn da bi cs t : String)
    (recs : List (List String)) (h : build_records df dn da bi cs t = .ok recs) :
    ∀ rec ∈ recs, rec.length = 8 ∧
      ∀ i : Nat, usedFields (rec.headD "") ≤ i → i < 8 → rec.get? i = some "" := by
  obtain ⟨pays, totalStr, hp, hshape⟩ := build_records_ok_shape df dn da bi cs t recs h
  subst hshape
  intro rec hm
  simp only [List.mem_append] at hm
  rcases hm with ((hh | hpay) | hcon) | ht
  · simp only [headerRecords, List.mem_cons, List.not_mem_nil, or_false] at hh
    rcases hh with rfl | rfl | rfl | rfl
    · refine ⟨rfl, fun i h1 h2 => ?_⟩
      have h1b : 4 ≤ i := h1
      have hi : i = 4 ∨ i = 5 ∨ i = 6 ∨ i = 7 := by omega
      rcases hi with rfl | rfl | rfl | rfl <;> rfl
    · refine ⟨rfl, fun i h1 h2 => ?_⟩
      have h1b : 5 ≤ i := h1
      have hi : i = 5 ∨ i = 6 ∨ i = 7 := by omega
      rcases hi with rfl | rfl | rfl <;> rfl
    · refine ⟨rfl, fun i h1 h2 => ?_⟩
      have h1b : 3 ≤ i := h1
      have hi : i = 3 ∨ i = 4 ∨ i = 5 ∨ i = 6 ∨ i = 7 := by omega
      rcases hi with rfl | rfl | rfl | rfl | rfl <;> rfl
    · refine ⟨rfl, fun i h1 h2 => ?_⟩
      have h1b : 3 ≤ i := h1
      have hi : i = 3 ∨ i = 4 ∨ i = 5 ∨ i = 6 ∨ i = 7 := by omega
      rcases hi with rfl | rfl | rfl | rfl | rfl <;> rfl
  · obtain ⟨r, q, rfl⟩ := payLoop_mem df.rows none pays hp rec hpay
    refine ⟨rfl, fun i h1 h2 => ?_⟩
    have h1b : 7 ≤ i := h1
    have hi : i = 7 := by omega
    subst hi
    rfl
  · rcases List.mem_singleton.mp hcon with rfl
    refine ⟨rfl, fun i h1 h2 => ?_⟩
    have h1b : 5 ≤ i := h1
    have hi : i = 5 ∨ i = 6 ∨ i = 7 := by omega
    rcases hi with rfl | rfl | rfl <;> rfl
  · simp only [trailerRecords, List.mem_cons, List.not_mem_nil, or_false] at ht
    rcases ht with rfl | rfl | rfl <;>
      · refine ⟨rfl, fun i h1 h2 => ?_⟩
        have h1b : 2 ≤ i := h1
        have hi : i = 2 ∨ i = 3 ∨ i = 4 ∨ i = 5 ∨ i = 6 ∨ i = 7 := by omega
        rcases hi with rfl | rfl | rfl | rfl | rfl | rfl <;> rfl

/-- C1: for every dataset from which process_csv builds a record sequence
(the dataset has the six required columns and building succeeds), the
sequence has length N + 8 for N input rows; records 0-3 are tagged VOL,
HDR1, HDR2, UHL1 in that order; the last three (positions N+5, N+6, N+7)
are tagged EOF1, EOF2, UTL1 in that order; the record at position 4 + i is
the PAY record built from input row i, preserving input order; and the
single CONTRA record sits at position 4 + N, immediately after the last
PAY record. -/
theorem process_csv_record_structure (df : DataFrame) (dn da bi cs t : String)
    (recs : List (List String)) (h : build_records df dn da bi cs t = .ok recs) :
    recs.length = df.rows.length + 8 ∧
    (recs.get? 0).bind (fun rec => rec.head?) = some "VOL" ∧
    (recs.get? 1).bind (fun rec => rec.head?) = some "HDR1" ∧
    (recs.get? 2).bind (fun rec => rec.head?) = some "HDR2" ∧
    (recs.get? 3).bind (fun rec => rec.head?) = some "UHL1" ∧
    (recs.get? (df.rows.length + 5)).bind (fun rec => rec.head?) = some "EOF1" ∧
    (recs.get? (df.rows.length + 6)).bind (fun rec => rec.head?) = some "EOF2" ∧
    (recs.get? (df.rows.length + 7)).bind (fun rec => rec.head?) = some "UTL1" ∧
    (∀ (i : Nat) (r : Row), df.rows.get? i = some r →
      ∃ q, recs.get? (4 + i) = some (payRec r q)) ∧
    (recs.get? (4 + df.rows.length)).bind (fun rec => rec.head?) = some "CONTRA" ∧
    recs.countP (fun rec => decide (rec.head? = some "CONTRA")) = 1 := by
  obtain ⟨pays, totalStr, hp, hshape⟩ := build_records_ok_shape df dn da bi cs t recs h
  have hlenp : pays.length = df.rows.length := payLoop_length df.rows none pays hp
  subst hshape
  have e1 : (headerRecords dn da bi t).length = 4 := rfl
  have e2 : ([contraRecord dn cs da totalStr] : List (List String)).length = 1 := rfl
  refine ⟨?_, ?_, ?_, ?_, ?_, ?_, ?_, ?_, ?_, ?_, ?_⟩
  · simp only [List.length_append, e1, e2, hlenp]
    have e3 : trailerRecords.length = 3 := rfl
    rw [e3]
    omega
  · rw [get?_parts, e1, if_pos (by omega)]
    rfl
  · rw [get?_parts, e1, if_pos (by omega)]
    rfl
  · rw [get?_parts, e1, if_pos (by omega)]
    rfl
  · rw [get?_parts, e1, if_pos (by omega)]
    rfl
  · rw [get?_parts, e1, e2, hlenp, if_neg (by omega), if_neg (by omega), if_neg (by omega)]
    have e3 : df.rows.length + 5 - 4 - df.rows.length - 1 = 0 := by omega
    rw [e3]
    rfl
  · rw [get?_parts, e1, e2, hlenp, if_neg (by omega), if_neg (by omega), if_neg (by omega)]
    have e3 : df.rows.length + 6 - 4 - df.rows.length - 1 = 1 := by omega
    rw [e3]
    rfl
  · rw [get?_parts, e1, e2, hlenp, if_neg (by omega), if_neg (by omega), if_neg (by omega)]
    have e3 : df.rows.length + 7 - 4 - df.rows.length - 1 = 2 := by omega
    rw [e3]
    rfl
  · intro i r hir
    have hi : i < df.rows.length := by
      by_contra hni
      rw [List.get?_eq_none.mpr (by omega)] at hir
      cases hir
    obtain ⟨q, hq⟩ := payLoop_get df.rows none pays hp i r hir
    refine ⟨q, ?_⟩
    rw [get?_parts, e1, hlenp, if_neg (by omega), if_pos (by omega)]
    have e3 : 4 + i - 4 = i := by omega
    rw [e3, hq]
  · rw [get?_parts, e1, e2, hlenp, if_neg (by omega), if_neg (by omega), if_pos (by omega)]
    have e3 : 4 + df.rows.length - 4 - df.rows.length = 0 := by omega
    rw [e3]
    rfl
  · simp only [List.countP_append]
    have hH : (headerRecords dn da bi t).countP
        (fun rec => decide (rec.head? = some "CONTRA")) = 0 := by
      simp [headerRecords, List.countP_cons]
    have hP : pays.countP (fun rec => decide (rec.head? = some "CONTRA")) = 0 := by
      rw [List.countP_eq_zero]
      intro rec hrecm
      obtain ⟨r, q, rfl⟩ := payLoop_mem df.rows none pays hp rec hrecm
      simp [payRec]
    have hC : ([contraRecord dn cs da totalStr] : List (List String)).countP
        (fun rec => decide (rec.head? = some "CONTRA")) = 1 := by
      simp [contraRecord, List.countP_cons]
    have hT : trailerRecords.countP
        (fun rec => decide (rec.head? = some "CONTRA")) = 0 := by
      simp [trailerRecords, List.countP_cons]
    rw [hH, hP, hC, hT]

/-- C1 witness: the structure theorem instantiated at the worked example
dataset, whose built record sequence is exRecs. -/
theorem process_csv_record_structure_witness :
    exRecs.length = exDf.rows.length + 8 ∧
    (exRecs.get? 0).bind (fun rec => rec.head?) = some "VOL" ∧
    (exRecs.get? 1).bind (fun rec => rec.head?) = some "HDR1" ∧
    (exRecs.get? 2).bind (fun rec => rec.head?) = some "HDR2" ∧
    (exRecs.get? 3).bind (fun rec => rec.head?) = some "UHL1" ∧
    (exRecs.get? (exDf.rows.length + 5)).bind (fun rec => rec.head?) = some "EOF1" ∧
    (exRecs.get? (exDf.rows.length + 6)).bind (fun rec => rec.head?) = some "EOF2" ∧
    (exRecs.get? (exDf.rows.length + 7)).bind (fun rec => rec.head?) = some "UTL1" ∧
    (∀ (i : Nat) (r : Row), exDf.rows.get? i = some r →
      ∃ q, exRecs.get? (4 + i) = some (payRec r q)) ∧
    (exRecs.get? (4 + exDf.rows.length)).bind (fun rec => rec.head?) = some "CONTRA" ∧
    exRecs.countP (fun rec => decide (rec.head? = some "CONTRA")) = 1 :=
  process_csv_record_structure exDf "ABC Ltd" "12345678" "001" "12-34-56" "2024-01-15"
    exRecs (by decide)

/-- C2: a dataset whose column set lacks any of the six required columns is
rejected with an error carrying exactly the missing set — the set
difference of the required names and the dataset columns — and this
happens whatever the rows contain: no record is built and no output text
is produced. -/
theorem missing_columns_rejected (cols : List String) (rows : List Row)
    (dn da bi cs t : String)
    (h : required_cols.all (fun c => cols.contains c) = false) :
    process_csv ⟨cols, rows⟩ dn da bi cs t = .error (.missingCols (missing_of cols)) ∧
    (missing_of cols).toFinset = required_cols.toFinset \ cols.toFinset := by
  constructor
  · unfold process_csv build_records
    have hnc : ¬ ((required_cols.all fun c => cols.contains c) = true) := by
      rw [h]
      simp
    rw [if_neg hnc]
  · exact missing_of_sdiff cols

/-- C2 witness: the rejection theorem instantiated at a dataset lacking the
amount column, with a nonempty row list. -/
theorem missing_columns_rejected_witness :
    process_csv ⟨missDf.cols, missDf.rows⟩ "A Ltd" "11111111" "007" "10-20-30" "2024-03-03" =
      .error (.missingCols (missing_of missDf.cols)) ∧
    (missing_of missDf.cols).toFinset = required_cols.toFinset \ missDf.cols.toFinset :=
  missing_columns_rejected missDf.cols missDf.rows "A Ltd" "11111111" "007" "10-20-30"
    "2024-03-03" (by decide)

/-- C6: every record of a built sequence — header, PAY, CONTRA and trailer —
has exactly 8 fields, and every semantically unused trailing position (each
position from the tag's populated-field count, per lines 42-69, up to
position 7) is filled with the empty string. -/
theorem records_have_eight_fields (df : DataFrame) (dn da bi cs t : String)
    (recs : List (List String)) (h : build_records df dn da bi cs t = .ok recs) :
    ∀ rec ∈ recs, rec.length = 8 ∧
      ∀ i : Nat, usedFields (rec.headD "") ≤ i → i < 8 → rec.get? i = some "" :=
  build_records_mem_eight df dn da bi cs t recs h

/-- C6 witness: the eight-fields theorem instantiated at the worked example
dataset and its VOL record, whose positions 4-7 are all empty. -/
theorem records_have_eight_fields_witness :
    (["VOL", "001", "HSBC", "2024-01-15", "", "", "", ""] : List String).length = 8 ∧
    ∀ i : Nat,
      usedFields ((["VOL", "001", "HSBC", "2024-01-15", "", "", "", ""] :
        List String).headD "") ≤ i → i < 8 →
      (["VOL", "001", "HSBC", "2024-01-15", "", "", "", ""] : List String).get? i = some "" :=
  records_have_eight_fields exDf "ABC Ltd" "12345678" "001" "12-34-56" "2024-01-15"
    exRecs (by decide)
    ["VOL", "001", "HSBC", "2024-01-15", "", "", "", ""]
    (by decide)

/-- C9 counterexample: the layout the claim states for the VOL record —
the institution tag HSBC directly after the record tag, then the issue
date, with two trailing empty fields — is not the code's.  At the worked
example build, the field after the VOL tag is the fixed volume field 001,
not HSBC, and the record ends in four empty fields (position 4 is already
empty), so HSBC and the issue date sit one position later than stated. -/
theorem vol_layout_counterexample :
    build_records exDf "ABC Ltd" "12345678" "001" "12-34-56" "2024-01-15" = .ok exRecs ∧
    (exRecs.get? 0).bind (fun rec => rec.get? 1) = some "001" ∧
    ¬ ((exRecs.get? 0).bind (fun rec => rec.get? 1) = some "HSBC") ∧
    (exRecs.get? 0).bind (fun rec => rec.get? 4) = some "" ∧
    (exRecs.get? 0).bind (fun rec => rec.get? 5) = some "" ∧
    (exRecs.get? 0).bind (fun rec => rec.get? 6) = some "" ∧
    (exRecs.get? 0).bind (fun rec => rec.get? 7) = some "" := by decide

/-- C9 as amended: the header block is determined by the batch parameters
and the issue date alone, with the exact field layout of the source: VOL
carries a fixed volume field 001 at position 1, the fixed institution tag
HSBC at position 2, the issue date at position 3 and four trailing empty
fields; HDR1 carries debtor name, debtor account, the institution tag and
the issue date; HDR2 carries the label "Payment Batch {batch_id}" and the
batch id again as a separate field; UHL1 carries debtor name and debtor
account. -/
theorem header_block_layout (df : DataFrame) (dn da bi cs t : String)
    (recs : List (List String)) (h : build_records df dn da bi cs t = .ok recs) :
    recs.get? 0 = some ["VOL", "001", "HSBC", t, "", "", "", ""] ∧
    recs.get? 1 = some ["HDR1", dn, da, "HSBC", t, "", "", ""] ∧
    recs.get? 2 = some ["HDR2", "Payment Batch " ++ bi, bi, "", "", "", "", ""] ∧
    recs.get? 3 = some ["UHL1", dn, da, "", "", "", "", ""] := by
  obtain ⟨pays, totalStr, hp, hshape⟩ := build_records_ok_shape df dn da bi cs t recs h
  subst hshape
  have e1 : (headerRecords dn da bi t).length = 4 := rfl
  refine ⟨?_, ?_, ?_, ?_⟩ <;>
    · rw [get?_parts, e1, if_pos (by omega)]
      rfl

/-- C9 witness: the header layout theorem instantiated at the worked
example dataset. -/
theorem header_block_layout_witness :
    exRecs.get? 0 = some ["VOL", "001", "HSBC", "2024-01-15", "", "", "", ""] ∧
    exRecs.get? 1 = some ["HDR1", "ABC Ltd", "12345678", "HSBC", "2024-01-15", "", "", ""] ∧
    exRecs.get? 2 = some ["HDR2", "Payment Batch " ++ "001", "001", "", "", "", "", ""] ∧
    exRecs.get? 3 = some ["UHL1", "ABC Ltd", "12345678", "", "", "", "", ""] :=
  header_block_layout exDf "ABC Ltd" "12345678" "001" "12-34-56" "2024-01-15"
    exRecs (by decide)

/-- C3: for a dataset that passes validation and whose amount column is
numeric, the amount field (position 4) of the CONTRA record — which sits
right after the N PAY records — is the arithmetic sum of the amount column
formatted to exactly two decimal places. -/
theorem contra_amount_is_column_sum (df : DataFrame) (dn da bi cs t : String)
    (hcols : required_cols.all (fun c => df.cols.contains c) = true)
    (hnum : ∀ r ∈ df.rows, ∃ x, r.amount = Val.num x) :
    ∃ recs, build_records df dn da bi cs t = .ok recs ∧
      (recs.get? (4 + df.rows.length)).bind (fun rec => rec.get? 4) =
        some (fmt2 (decSum ((df.rows.map Row.amount).map numVal))) := by
  obtain ⟨pays, hp, hbuild⟩ := build_records_allNum df dn da bi cs t hcols hnum
  refine ⟨_, hbuild, ?_⟩
  have hlenp : pays.length = df.rows.length := payLoop_length df.rows none pays hp
  have e1 : (headerRecords dn da bi t).length = 4 := rfl
  have e2 : ([contraRecord dn cs da
      (fmt2 (decSum ((df.rows.map Row.amount).map numVal)))] : List (List String)).length = 1 :=
    rfl
  rw [get?_parts, e1, e2, hlenp, if_neg (by omega), if_neg (by omega), if_pos (by omega)]
  have e3 : 4 + df.rows.length - 4 - df.rows.length = 0 := by omega
  rw [e3]
  rfl

/-- C3 witness: the CONTRA sum theorem instantiated at the worked example
dataset, where the single amount 150.5 gives the total field 150.50. -/
theorem contra_amount_is_column_sum_witness :
    ∃ recs, build_records exDf "ABC Ltd" "12345678" "001" "12-34-56" "2024-01-15" = .ok recs ∧
      (recs.get? (4 + exDf.rows.length)).bind (fun rec => rec.get? 4) =
        some (fmt2 (decSum ((exDf.rows.map Row.amount).map numVal))) :=
  contra_amount_is_column_sum exDf "ABC Ltd" "12345678" "001" "12-34-56" "2024-01-15"
    (by decide)
    (fun r hr => by
      rw [show r = exRow from by simpa [exDf] using hr]
      exact ⟨⟨1505, 1⟩, rfl⟩)

/-- C4 counterexample: a dataset whose first row has the unparsable amount
text abc.  The claim says a PAY record is still emitted and the batch is
not aborted; in fact amount_val is unbound when the record is formatted,
the row loop raises NameError, no PAY record is emitted and the whole call
fails. -/
theorem first_row_parse_failure_aborts :
    process_csv badDf "A Ltd" "12345678" "001" "12-34-56" "2024-01-15" =
      .error .nameError ∧
    payLoop none badDf.rows = .error .nameError := by decide

/-- C4 as amended: when a row's amount fails to parse and the rows before
it were processed successfully with at least one successful parse, the row
loop still emits a PAY record for it — the failure does not abort the
loop — and that record's amount field carries the two-decimal formatting
of the amount of whichever row last parsed successfully, rather than
zero.  (With no previously parsed row the loop instead raises NameError,
as the counterexample shows.) -/
theorem parse_failure_carries_previous_amount
    (rs1 : List Row) (r : Row) (rs2 : List Row) (q : Dec)
    (l1 l2 : List (List String))
    (h1 : payLoop none rs1 = .ok l1)
    (h2 : lastParsed none rs1 = some q)
    (h3 : pyFloat r.amount = none)
    (h4 : payLoop (some q) rs2 = .ok l2) :
    payLoop none (rs1 ++ r :: rs2) = .ok (l1 ++ payRec r q :: l2) ∧
    (payRec r q).get? 4 = some (fmt2 q) := by
  constructor
  · rw [payLoop_append rs1 (r :: rs2) none l1 h1, h2, payLoop_cons]
    simp only [h3, h4]
  · rfl

/-- C4 witness: after the worked example row parses 150.5, the bad row
whose amount is abc is still emitted with amount field 150.50 carried over
from the previous row. -/
theorem parse_failure_carries_previous_amount_witness :
    payLoop none ([exRow] ++ badRow :: []) =
      .ok ([payRec exRow ⟨1505, 1⟩] ++ payRec badRow ⟨1505, 1⟩ :: []) ∧
    (payRec badRow ⟨1505, 1⟩).get? 4 = some (fmt2 ⟨1505, 1⟩) :=
  parse_failure_carries_previous_amount [exRow] badRow [] ⟨1505, 1⟩
    [payRec exRow ⟨1505, 1⟩] [] (by decide) (by decide) (by decide) (by decide)

/-- C5 counterexample: a dataset that passes the missing-columns check at
entry yet makes process_csv raise — its only row's amount text oops fails
to parse with amount_val still unbound, so NameError propagates and no
text is returned.  The claim that validation is the only propagated
failure is therefore false. -/
theorem valid_columns_still_raises :
    required_cols.all (fun c => badDf2.cols.contains c) = true ∧
    process_csv badDf2 "Deb Ltd" "99999999" "002" "11-22-33" "2024-02-02" =
      .error .nameError := by decide

/-- C5 as amended: besides the missing-columns rejection at entry,
process_csv can propagate failures caused by non-numeric amount cells
(the row loop's NameError, and the type and format errors of the
aggregation step); but for every dataset that passes validation and whose
amount column is numeric, the call returns a serialized text result
without raising. -/
theorem all_numeric_returns_text (df : DataFrame) (dn da bi cs t : String)
    (hcols : required_cols.all (fun c => df.cols.contains c) = true)
    (hnum : ∀ r ∈ df.rows, ∃ x, r.amount = Val.num x) :
    ∃ s, process_csv df dn da bi cs t = .ok s := by
  obtain ⟨pays, hp, hbuild⟩ := build_records_allNum df dn da bi cs t hcols hnum
  have hok : process_csv df dn da bi cs t =
      .ok (serializeRecords
        (headerRecords dn da bi t ++ pays ++
         [contraRecord dn cs da (fmt2 (decSum ((df.rows.map Row.amount).map numVal)))] ++
         trailerRecords)) := by
    unfold process_csv
    rw [hbuild]
  exact ⟨_, hok⟩

/-- C5 witness: the all-numeric theorem instantiated at the worked example
dataset. -/
theorem all_numeric_returns_text_witness :
    ∃ s, process_csv exDf "ABC Ltd" "12345678" "001" "12-34-56" "2024-01-15" = .ok s :=
  all_numeric_returns_text exDf "ABC Ltd" "12345678" "001" "12-34-56" "2024-01-15"
    (by decide)
    (fun r hr => by
      rw [show r = exRow from by simpa [exDf] using hr]
      exact ⟨⟨1505, 1⟩, rfl⟩)

/-- C7: the text process_csv returns is the serialization of the built
record sequence, and parsing that text back with the same delimited-text
rules (comma delimiter, minimal quoting, doubled quote char, CRLF record
ends) recovers the same ordered record sequence, field for field. -/
theorem serialize_parse_round_trip (df : DataFrame) (dn da bi cs t : String)
    (recs : List (List String)) (h : build_records df dn da bi cs t = .ok recs) :
    process_csv df dn da bi cs t = .ok (serializeRecords recs) ∧
    parseCSV (serializeRecords recs) = some recs := by
  constructor
  · unfold process_csv
    rw [h]
  · apply parse_serialize
    intro rec hm
    have h8 := build_records_mem_eight df dn da bi cs t recs h rec hm
    intro hnil
    rw [hnil] at h8
    cases h8.1

/-- C7 witness: the round-trip theorem instantiated at the worked example
dataset and its built record sequence. -/
theorem serialize_parse_round_trip_witness :
    process_csv exDf "ABC Ltd" "12345678" "001" "12-34-56" "2024-01-15" =
      .ok (serializeRecords exRecs) ∧
    parseCSV (serializeRecords exRecs) = some exRecs :=
  serialize_parse_round_trip exDf "ABC Ltd" "12345678" "001" "12-34-56" "2024-01-15"
    exRecs (by decide)

/-- C8: process_csv is deterministic — two invocations with identical
dataset, identical batch parameters and the same issue date return the
identical text.  The source's only impurity, the datetime.today call, is
the today parameter of the embedding, fixed by the same-issue-date
premise. -/
theorem identical_inputs_identical_output
    (df1 df2 : DataFrame) (dn1 da1 bi1 cs1 t1 dn2 da2 bi2 cs2 t2 : String)
    (hdf : df1 = df2) (h1 : dn1 = dn2) (h2 : da1 = da2) (h3 : bi1 = bi2)
    (h4 : cs1 = cs2) (h5 : t1 = t2) :
    process_csv df1 dn1 da1 bi1 cs1 t1 = process_csv df2 dn2 da2 bi2 cs2 t2 := by
  subst hdf h1 h2 h3 h4 h5
  rfl

/-- C8 witness: determinism instantiated at the worked example
invocation. -/
theorem identical_inputs_identical_output_witness :
    process_csv exDf "ABC Ltd" "12345678" "001" "12-34-56" "2024-01-15" =
      process_csv exDf "ABC Ltd" "12345678" "001" "12-34-56" "2024-01-15" :=
  identical_inputs_identical_output exDf exDf "ABC Ltd" "12345678" "001" "12-34-56"
    "2024-01-15" "ABC Ltd" "12345678" "001" "12-34-56" "2024-01-15"
    rfl rfl rfl rfl rfl rfl

/-- C10: process_csv leaves its inputs unchanged.  In the state-passing
embedding, whose state carries the caller-visible dataset and the four
parameters through the validation, the row loop and the aggregation, the
final argument environment equals the initial one whether the call
returns text or fails, and the returned result agrees with the functional
embedding. -/
theorem inputs_left_unchanged (a : Args) (today : String) :
    (process_csv_imp a today).1 = a ∧
    (process_csv_imp a today).2 =
      process_csv a.df a.debtor_name a.debtor_account a.batch_id a.contra_sort_code today := by
  unfold process_csv_imp process_csv build_records
  cases hc : required_cols.all (fun c => a.df.cols.contains c) with
  | false => simp
  | true =>
    simp only [if_true]
    cases hp : payLoop none a.df.rows with
    | error e =>
      have hrun := (runRows_payLoop a.df.rows
        ⟨a, headerRecords a.debtor_name a.debtor_account a.batch_id today,
          none, none⟩).1 e hp
      rw [hrun]
      simp [hp]
    | ok l =>
      obtain ⟨av, au, hrun⟩ := (runRows_payLoop a.df.rows
        ⟨a, headerRecords a.debtor_name a.debtor_account a.batch_id today,
          none, none⟩).2 l hp
      rw [hrun]
      cases hsum : pandasSum (a.df.rows.map Row.amount) with
      | error e => simp [hp, hsum]
      | ok total =>
        cases hfmt : pyFormat2 total with
        | error e => simp [hp, hsum, hfmt]
        | ok totalStr => simp [hp, hsum, hfmt]

end Bacs
